import Mathlib

/-!
Shallow embedding of the forkstack repository: the configuration model of
src/forkstack/src/config.rs, the object-storage key and pagination logic of
src/forkstack/src/storage.rs, and the orchestration core of
src/forkstack/src/lib.rs. Network effects are made explicit: HTTP responses
are passed in as values, and the calls the code issues are returned as an
event trace.
-/

/-- Mirrors struct DatabaseConfig in src/forkstack/src/config.rs. -/
structure DatabaseConfig where
  provider : String
  organization : String
  production : String
  group : Option String
  deriving DecidableEq

/-- Mirrors struct StorageConfig in src/forkstack/src/config.rs. The source
field named after the configured key-prefix is rendered here as pfx. -/
structure StorageConfig where
  provider : String
  bucket : String
  endpoint : Option String
  region : Option String
  pfx : Option String
  deriving DecidableEq

/-- Model of the Rust HashMap of storage entries held in Config.storage:
declared lists the entries in the order the TOML file declares them, and
iter is the iteration order the HashMap actually exposes — an arbitrary
permutation of the same entries, since Rust's HashMap with RandomState
hashing leaves the iteration order unspecified. -/
structure StorageMapModel where
  declared : List (String × StorageConfig)
  iter : List (String × StorageConfig)
  perm : List.Perm iter declared

/-- Mirrors struct Config in src/forkstack/src/config.rs. -/
structure Config where
  database : DatabaseConfig
  storage : StorageMapModel

/-- Mirrors Config::database_group in src/forkstack/src/config.rs. -/
def databaseGroup (c : Config) : String :=
  match c.database.group with
  | some g => g
  | none => "default"

/-- Mirrors Config::storage_configs in src/forkstack/src/config.rs: the
source collects self.storage.iter(), so the result is in the HashMap's
iteration order. -/
def storageConfigs (c : Config) : List (String × StorageConfig) :=
  c.storage.iter

/-- Mirrors the fork-prefix accessor of StorageConfig in
src/forkstack/src/config.rs: the configured value if present, else the
default. -/
def forkPfxOf (sc : StorageConfig) : String :=
  match sc.pfx with
  | some p => p
  | none => "forks/"

/-- Spec-side test used by claim C1: the string's last character is a
slash. -/
def endsWithSlash (s : String) : Bool :=
  s.data.getLast? == some '/'

/-- Labels of the storage entries in the order the TOML file declares
them. -/
def declaredLabels (cfg : Config) : List String :=
  cfg.storage.declared.map Prod.fst

/-- Mirrors struct Fork in src/forkstack/src/lib.rs. -/
structure Fork where
  name : String
  database_url : String
  storage_url : String
  created_at : Nat
  deriving DecidableEq

/-- Mirrors the created-ago method of Fork in src/forkstack/src/lib.rs; now
is the clock value the source reads from SystemTime, and Nat subtraction
coincides with u64::saturating_sub. -/
def Fork.createdAgo (f : Fork) (now : Nat) : String :=
  let diff := now - f.created_at
  if diff < 60 then "just now"
  else if diff < 3600 then toString (diff / 60) ++ " mins ago"
  else if diff < 86400 then toString (diff / 3600) ++ " hours ago"
  else toString (diff / 86400) ++ " days ago"

/-- Adjective list of generate_fork_name in src/forkstack/src/lib.rs. -/
def adjectives : List String := ["swift", "bright", "calm", "bold", "keen"]

/-- Noun list of generate_fork_name in src/forkstack/src/lib.rs. -/
def nouns : List String := ["fork", "branch", "leaf", "wave", "spark"]

/-- Mirrors generate_fork_name in src/forkstack/src/lib.rs after the hash
accumulator has produced the 64-bit value hash. The source indexes fixed
arrays; the index is reduced mod the list length, so the getD default is
never reached. -/
def generateForkName (hash : Nat) : String :=
  let adj := adjectives.getD (hash % adjectives.length) ""
  let noun := nouns.getD ((hash >>> 8) % nouns.length) ""
  let num := (hash >>> 16) % 1000
  adj ++ "-" ++ noun ++ "-" ++ toString num

/-- Mirrors struct DatabaseListItem in src/forkstack/src/turso.rs. -/
structure DatabaseListItem where
  name : String
  hostname : String
  deriving DecidableEq

/-- Mirrors struct DatabaseInfo in src/forkstack/src/turso.rs. -/
structure DatabaseInfo where
  db_id : String
  name : String
  hostname : String
  deriving DecidableEq

/-- Mirrors list_forks in src/forkstack/src/lib.rs, with the provider's
listing response passed in as databases (the network call itself is not
modelled). -/
def listForks (cfg : Config) (databases : List DatabaseListItem) : List Fork :=
  (databases.filter (fun db => db.name != cfg.database.production)).map
    (fun db =>
      { name := db.name
        database_url := "libsql://" ++ db.hostname
        storage_url := ""
        created_at := 0 })

/-- Mirrors one list_objects_v2 response as consumed by
src/forkstack/src/storage.rs: contents is the optional object list, each
object carrying an optional key, together with the truncation flag and the
continuation token of the S3 wire shape. -/
structure ListResponse where
  contents : Option (List (Option String))
  is_truncated : Option Bool
  next_continuation_token : Option String
  deriving DecidableEq

/-- Keys the source loops actually visit in one response: contents
defaulted to the empty list, objects without a key skipped. -/
def pageKeys (r : ListResponse) : List String :=
  (r.contents.getD []).filterMap id

/-- Union of the keys of a whole response sequence, in listing order. -/
def allKeys (pages : List ListResponse) : List String :=
  pages.flatMap pageKeys

/-- Server-side copy issued for one listed key inside copy_to_fork of
src/forkstack/src/storage.rs: dest is the new key, copySource the
copy_source argument. -/
structure CopyAction where
  dest : String
  copySource : String
  deriving DecidableEq

/-- Rust str::strip_prefix followed by unwrap_or on the original key: drop
p when key starts with it, otherwise keep the whole key. -/
def stripPfx (p key : String) : String :=
  if p.data.isPrefixOf key.data then String.mk (key.data.drop p.data.length)
  else key

/-- Destination and copy-source computation for one key inside copy_to_fork
of src/forkstack/src/storage.rs, with forkPfxFull the already-computed
fork-scoped destination root. -/
def copyKeyAction (bucket forkPfxFull sourcePfx key : String) : CopyAction :=
  { dest := forkPfxFull ++ stripPfx sourcePfx key
    copySource := bucket ++ "/" ++ key }

/-- Pagination loop of copy_to_fork in src/forkstack/src/storage.rs. The
list pages stands for the successive list_objects_v2 responses; tok is the
continuation token the pending request carries (none on the first call).
Returns the token supplied by each listing call, in order, and the copy
actions issued, in order. -/
def copyLoopP (bucket forkPfxFull sourcePfx : String) :
    List ListResponse → Option String → List (Option String) × List CopyAction
  | [], _ => ([], [])
  | r :: rest, tok =>
    let acts := (pageKeys r).map (copyKeyAction bucket forkPfxFull sourcePfx)
    if r.is_truncated = some true then
      let p := copyLoopP bucket forkPfxFull sourcePfx rest r.next_continuation_token
      (tok :: p.1, acts ++ p.2)
    else
      ([tok], acts)

/-- Mirrors copy_to_fork of src/forkstack/src/storage.rs over a given
response sequence: computes the fork-scoped destination root from the
client's stored root and the fork name, runs the pagination loop with no
initial token, and returns the listing calls, the copy actions, and the
location string returned on success. -/
def copyToForkPages (bucket rootPfx sourcePfx forkName : String)
    (pages : List ListResponse) :
    List (Option String) × List CopyAction × String :=
  let fp := rootPfx ++ forkName ++ "/"
  let p := copyLoopP bucket fp sourcePfx pages none
  (p.1, p.2, "s3://" ++ bucket ++ "/" ++ fp)

/-- Pagination loop of delete_fork in src/forkstack/src/storage.rs,
analogous to copyLoopP: returns the listing calls' tokens and the keys
handed to delete_object, in order. -/
def deleteLoopP :
    List ListResponse → Option String → List (Option String) × List String
  | [], _ => ([], [])
  | r :: rest, tok =>
    let ks := pageKeys r
    if r.is_truncated = some true then
      let p := deleteLoopP rest r.next_continuation_token
      (tok :: p.1, ks ++ p.2)
    else
      ([tok], ks)

/-- Mirrors delete_fork of src/forkstack/src/storage.rs over a given
response sequence. The fork-scoped root built from the two string arguments
only shapes the listing request, whose answers are supplied in pages. -/
def deleteForkPages (_rootPfx _forkName : String) (pages : List ListResponse) :
    List (Option String) × List String :=
  deleteLoopP pages none

/-- Well-formed response sequence, the pagination contract of the spec:
every response before the last is truncated and carries a continuation
token, and the last response is not truncated. -/
def wfPages : List ListResponse → Bool
  | [] => false
  | [r] => if r.is_truncated = some true then false else true
  | r :: rest =>
    if r.is_truncated = some true then
      r.next_continuation_token.isSome && wfPages rest
    else false

/-- External calls the orchestration core issues, in program order. -/
inductive Event where
  | dbCreate (name fromDb group : String)
  | dbDelete (name : String)
  | storageNew (label pfxArg : String)
  | storageCopy (label sourcePfx forkName : String)
  | storageDeleteFork (label forkName : String)
  deriving DecidableEq

/-- Bucket labels in the order the trace constructs storage clients. -/
def bucketOrder (evs : List Event) : List String :=
  evs.filterMap (fun e =>
    match e with
    | Event.storageNew l _ => some l
    | _ => none)

/-- Events one bucket iteration of create_fork emits: client construction
followed by the copy call with the empty source and the fork name. -/
def blockEvents (forkName : String) (x : String × StorageConfig) : List Event :=
  [Event.storageNew x.1 (forkPfxOf x.2), Event.storageCopy x.1 ("") forkName]

/-- Storage phase of create_fork in src/forkstack/src/lib.rs: one iteration
per entry of storageConfigs, in that order; copyResult gives each bucket's
copy_to_fork outcome (the storage-client constructor cannot fail in the
source). Returns the collected per-bucket location strings, or the first
error, together with the calls issued. -/
def storageLoop (forkName : String)
    (copyResult : String → StorageConfig → Except String String) :
    List (String × StorageConfig) → Except String (List String) × List Event
  | [] => (Except.ok [], [])
  | (label, sc) :: rest =>
    let evs := blockEvents forkName (label, sc)
    match copyResult label sc with
    | Except.error e => (Except.error e, evs)
    | Except.ok url =>
      match storageLoop forkName copyResult rest with
      | (Except.error e, evs2) => (Except.error e, evs ++ evs2)
      | (Except.ok urls, evs2) =>
        (Except.ok ((label ++ ": " ++ url) :: urls), evs ++ evs2)

/-- Mirrors create_fork in src/forkstack/src/lib.rs. The clock reading and
the generated name are passed in as now and genName; tursoNew is the
outcome of the database-client constructor (token lookup), dbResult the
outcome of the provider's fork-creation call, and copyResult each bucket's
storage outcome. Returns the result together with the trace of external
calls. -/
def createFork (cfg : Config) (name : Option String) (genName : String)
    (now : Nat) (tursoNew : Except String Unit)
    (dbResult : Except String DatabaseInfo)
    (copyResult : String → StorageConfig → Except String String) :
    Except String Fork × List Event :=
  let forkName := name.getD genName
  match tursoNew with
  | Except.error e => (Except.error e, [])
  | Except.ok _ =>
    match dbResult with
    | Except.error e =>
      (Except.error e,
       [Event.dbCreate forkName cfg.database.production (databaseGroup cfg)])
    | Except.ok dbInfo =>
      let databaseUrl := "libsql://" ++ dbInfo.hostname
      let ev0 := [Event.dbCreate forkName cfg.database.production (databaseGroup cfg)]
      match storageLoop forkName copyResult (storageConfigs cfg) with
      | (Except.error e, evs) => (Except.error e, ev0 ++ evs)
      | (Except.ok urls, evs) =>
        (Except.ok
          { name := forkName
            database_url := databaseUrl
            storage_url := String.intercalate ("\n") urls
            created_at := now }, ev0 ++ evs)

/-- Storage phase of delete_fork in src/forkstack/src/lib.rs: one iteration
per entry of storageConfigs, in that order; delResult gives each bucket's
storage delete_fork outcome. -/
def deleteLoopCfg (forkName : String)
    (delResult : String → StorageConfig → Except String Unit) :
    List (String × StorageConfig) → Except String Unit × List Event
  | [] => (Except.ok (), [])
  | (label, sc) :: rest =>
    let evs := [Event.storageNew label (forkPfxOf sc),
                Event.storageDeleteFork label forkName]
    match delResult label sc with
    | Except.error e => (Except.error e, evs)
    | Except.ok _ =>
      let p := deleteLoopCfg forkName delResult rest
      (p.1, evs ++ p.2)

/-- Mirrors delete_fork in src/forkstack/src/lib.rs, with the outcomes of
the database-client constructor, the database deletion, and each bucket's
storage deletion passed in. -/
def deleteForkCfg (cfg : Config) (name : String)
    (tursoNew : Except String Unit) (dbDel : Except String Unit)
    (delResult : String → StorageConfig → Except String Unit) :
    Except String Unit × List Event :=
  match tursoNew with
  | Except.error e => (Except.error e, [])
  | Except.ok _ =>
    match dbDel with
    | Except.error e => (Except.error e, [Event.dbDelete name])
    | Except.ok _ =>
      let p := deleteLoopCfg name delResult (storageConfigs cfg)
      (p.1, Event.dbDelete name :: p.2)

/-- Dotted configuration file name checked first by
Config::find_config_file in src/forkstack/src/config.rs. -/
def dotName : String := ".forkstack.toml"

/-- Fallback configuration file name checked second. -/
def altName : String := "forkstack.toml"

/-- Bail message of Config::find_config_file, verbatim from
src/forkstack/src/config.rs. -/
def noConfigMsg : String :=
  "No .forkstack.toml found. Create one with:\n\n[database]\nprovider = \"turso\"\norganization = \"your-org\"\nproduction = \"your-db-name\"\n"

/-- Upward walk of Config::find_config_file over the reversed component
list of the current directory (head of the list = deepest component); fs
says which paths exist, a path being its component list from the root. -/
def findConfigAux (fs : List String → Bool) :
    List String → Except String (List String)
  | [] =>
    if fs [dotName] then Except.ok [dotName]
    else if fs [altName] then Except.ok [altName]
    else Except.error noConfigMsg
  | c :: rest =>
    let dir := (c :: rest).reverse
    if fs (dir ++ [dotName]) then Except.ok (dir ++ [dotName])
    else if fs (dir ++ [altName]) then Except.ok (dir ++ [altName])
    else findConfigAux fs rest

/-- Mirrors Config::find_config_file in src/forkstack/src/config.rs,
starting from the directory dir given as its component list from the
root. -/
def findConfigFile (fs : List String → Bool) (dir : List String) :
    Except String (List String) :=
  findConfigAux fs dir.reverse

/-- Chain of directories the walk visits: dir, its parent, and so on down
to the root, deepest first (helper over the reversed component list). -/
def upwardChainAux : List String → List (List String)
  | [] => [[]]
  | c :: rest => (c :: rest).reverse :: upwardChainAux rest

/-- Chain of directories the walk visits, deepest first. -/
def upwardChain (dir : List String) : List (List String) :=
  upwardChainAux dir.reverse

/-!
Concrete inputs used by counterexamples and witnesses.
-/

/-- Storage entry whose configured key-prefix lacks the trailing slash. -/
def scNoSlash : StorageConfig :=
  { provider := "s3", bucket := "b", endpoint := none, region := none,
    pfx := some ("x") }

/-- Storage entry with no configured key-prefix. -/
def scDefault : StorageConfig :=
  { provider := "tigris", bucket := "b", endpoint := none, region := none,
    pfx := none }

/-- First storage entry of the two-bucket configurations below. -/
def scA : StorageConfig :=
  { provider := "s3", bucket := "bucket-a", endpoint := none, region := none,
    pfx := none }

/-- Second storage entry of the two-bucket configurations below. -/
def scB : StorageConfig :=
  { provider := "s3", bucket := "bucket-b", endpoint := none, region := none,
    pfx := none }

/-- Two-bucket configuration whose HashMap iteration order is the reverse
of the declared order — a run Rust's RandomState hashing permits. -/
def cfgSwapped : Config :=
  { database := { provider := "turso", organization := "org",
                  production := "prod", group := none }
    storage :=
      { declared := [(("a"), scA), (("b"), scB)]
        iter := [(("b"), scB), (("a"), scA)]
        perm := List.Perm.swap (("a"), scA) (("b"), scB) [] } }

/-- Two-bucket configuration whose iteration order matches declaration. -/
def cfgTwo : Config :=
  { database := { provider := "turso", organization := "org",
                  production := "prod", group := none }
    storage :=
      { declared := [(("a"), scA), (("b"), scB)]
        iter := [(("a"), scA), (("b"), scB)]
        perm := List.Perm.refl _ } }

/-- Database-info value a successful provider call could return. -/
def dbInfo0 : DatabaseInfo :=
  { db_id := "id", name := "x", hostname := "h.turso.io" }

/-- Two-page listing: first page truncated with a token, second not. -/
def pagesTwo : List ListResponse :=
  [{ contents := some [some ("a.txt"), none], is_truncated := some true,
     next_continuation_token := some ("tok1") },
   { contents := some [some ("sub/b.txt")], is_truncated := some false,
     next_continuation_token := none }]

/-- One-page listing whose only key already lies under the root. -/
def pagesNested : List ListResponse :=
  [{ contents := some [some ("forks/old/f.txt")], is_truncated := some false,
     next_continuation_token := none }]

/-- Per-bucket storage outcome that succeeds on bucket a and fails on
bucket b. -/
def crW : String → StorageConfig → Except String String :=
  fun l _ => if l = "a" then Except.ok ("u") else Except.error ("boom")

/-!
Helper lemmas shared by the claim theorems.
-/

/-- Stripping the empty source leaves every key unchanged. -/
theorem stripPfx_empty (k : String) : stripPfx ("") k = k := by
  obtain ⟨l⟩ := k
  cases l with
  | nil => rfl
  | cons c cs => rfl

/-- Behaviour of the create_fork storage loop when every bucket
succeeds. -/
theorem storageLoop_ok (fn : String) (u : String → StorageConfig → String) :
    ∀ list : List (String × StorageConfig),
    storageLoop fn (fun l sc => Except.ok (u l sc)) list =
      (Except.ok (list.map (fun x => x.1 ++ ": " ++ u x.1 x.2)),
       list.flatMap (blockEvents fn)) := by
  intro list
  induction list with
  | nil => rfl
  | cons x rest ih =>
    obtain ⟨label, sc⟩ := x
    simp [storageLoop, ih]

/-- Behaviour of the create_fork storage loop at the first failing bucket:
earlier buckets are fully processed, the failing bucket's attempt is
recorded, and the error is returned. -/
theorem storageLoop_fail (fn : String)
    (cr : String → StorageConfig → Except String String) (label : String)
    (sc : StorageConfig) (e : String)
    (hfail : cr label sc = Except.error e) :
    ∀ pre post, (∀ x ∈ pre, ∃ url, cr x.1 x.2 = Except.ok url) →
    storageLoop fn cr (pre ++ (label, sc) :: post) =
      (Except.error e,
       pre.flatMap (blockEvents fn) ++ blockEvents fn (label, sc)) := by
  intro pre
  induction pre with
  | nil =>
    intro post _
    simp [storageLoop, hfail]
  | cons x pre ih =>
    intro post hpre
    obtain ⟨label0, sc0⟩ := x
    obtain ⟨url, hok⟩ := hpre (label0, sc0) (List.mem_cons_self _ _)
    have ih2 := ih post (fun y hy => hpre y (List.mem_cons_of_mem _ hy))
    simp [storageLoop, hok, ih2]

/-- Behaviour of the delete_fork storage loop when every bucket
succeeds. -/
theorem deleteLoopCfg_ok (fn : String) :
    ∀ list : List (String × StorageConfig),
    deleteLoopCfg fn (fun _ _ => Except.ok ()) list =
      (Except.ok (),
       list.flatMap (fun x => [Event.storageNew x.1 (forkPfxOf x.2),
                               Event.storageDeleteFork x.1 fn])) := by
  intro list
  induction list with
  | nil => rfl
  | cons x rest ih =>
    obtain ⟨label, sc⟩ := x
    simp [deleteLoopCfg, ih]

/-- One-step unfolding of the copy pagination loop. -/
theorem copyLoopP_cons (bucket fp sp : String) (r : ListResponse)
    (rest : List ListResponse) (tok : Option String) :
    copyLoopP bucket fp sp (r :: rest) tok =
      if r.is_truncated = some true then
        (tok :: (copyLoopP bucket fp sp rest r.next_continuation_token).1,
         (pageKeys r).map (copyKeyAction bucket fp sp) ++
           (copyLoopP bucket fp sp rest r.next_continuation_token).2)
      else ([tok], (pageKeys r).map (copyKeyAction bucket fp sp)) := rfl

/-- One-step unfolding of the delete pagination loop. -/
theorem deleteLoopP_cons (r : ListResponse) (rest : List ListResponse)
    (tok : Option String) :
    deleteLoopP (r :: rest) tok =
      if r.is_truncated = some true then
        (tok :: (deleteLoopP rest r.next_continuation_token).1,
         pageKeys r ++ (deleteLoopP rest r.next_continuation_token).2)
      else ([tok], pageKeys r) := rfl

/-- Characterisation of the copy pagination loop over a well-formed
response sequence: one call per page, tokens threaded from each page to the
next call, and the copy actions of all pages in order. -/
theorem copyLoopP_eq (bucket fp sp : String) :
    ∀ (pages : List ListResponse) (tok : Option String),
    wfPages pages = true →
    copyLoopP bucket fp sp pages tok =
      (tok :: pages.dropLast.map (fun r => r.next_continuation_token),
       (allKeys pages).map (copyKeyAction bucket fp sp)) := by
  intro pages
  induction pages with
  | nil => intro tok hwf; simp [wfPages] at hwf
  | cons r rest ih =>
    intro tok hwf
    cases rest with
    | nil =>
      by_cases h1 : r.is_truncated = some true
      · simp [wfPages, h1] at hwf
      · simp [copyLoopP, h1, allKeys]
    | cons s rest2 =>
      by_cases h1 : r.is_truncated = some true
      · simp only [wfPages, h1, if_true, Bool.and_eq_true] at hwf
        have ih2 := ih r.next_continuation_token hwf.2
        rw [copyLoopP_cons, if_pos h1, ih2]
        simp [allKeys, List.dropLast]
      · simp [wfPages, h1] at hwf

/-- Characterisation of the delete pagination loop over a well-formed
response sequence. -/
theorem deleteLoopP_eq :
    ∀ (pages : List ListResponse) (tok : Option String),
    wfPages pages = true →
    deleteLoopP pages tok =
      (tok :: pages.dropLast.map (fun r => r.next_continuation_token),
       allKeys pages) := by
  intro pages
  induction pages with
  | nil => intro tok hwf; simp [wfPages] at hwf
  | cons r rest ih =>
    intro tok hwf
    cases rest with
    | nil =>
      by_cases h1 : r.is_truncated = some true
      · simp [wfPages, h1] at hwf
      · simp [deleteLoopP, h1, allKeys]
    | cons s rest2 =>
      by_cases h1 : r.is_truncated = some true
      · simp only [wfPages, h1, if_true, Bool.and_eq_true] at hwf
        have ih2 := ih r.next_continuation_token hwf.2
        rw [deleteLoopP_cons, if_pos h1, ih2]
        simp [allKeys, List.dropLast]
      · simp [wfPages, h1] at hwf

/-- A well-formed response sequence is non-empty. -/
theorem wfPages_ne_nil (pages : List ListResponse)
    (h : wfPages pages = true) : pages ≠ [] := by
  intro h0
  rw [h0] at h
  simp [wfPages] at h

/-- Characterisation of the config-file walk over the reversed component
list: the result is determined by the first directory in the visit chain
holding either file name, the dotted name winning inside a directory. -/
theorem findConfigAux_eq (fs : List String → Bool) :
    ∀ rdir : List String,
    findConfigAux fs rdir =
      (match (upwardChainAux rdir).find?
          (fun d => fs (d ++ [dotName]) || fs (d ++ [altName])) with
       | some d =>
         if fs (d ++ [dotName]) then Except.ok (d ++ [dotName])
         else Except.ok (d ++ [altName])
       | none => Except.error noConfigMsg) := by
  intro rdir
  induction rdir with
  | nil =>
    cases h1 : fs [dotName] <;> cases h2 : fs [altName] <;>
      simp [findConfigAux, upwardChainAux, List.find?, h1, h2]
  | cons c rest ih =>
    cases h1 : fs (rest.reverse ++ [c, dotName]) <;>
      cases h2 : fs (rest.reverse ++ [c, altName]) <;>
      simp [findConfigAux, upwardChainAux, List.find?, h1, h2, ih]

/-!
Claim theorems.
-/

/-- C1 (counterexample): the storage entry scNoSlash carries the
user-supplied key-prefix value x, and its effective prefix x does not end
with a slash — refuting the claim that every user-supplied value yields a
slash-terminated effective prefix. -/
theorem c1_fork_pfx_counterexample :
    ¬ (endsWithSlash (forkPfxOf scNoSlash) = true) := by decide

/-- C1 (amended): when the prefix field is absent the effective prefix is
the default and ends with a slash; a user-supplied prefix value is returned
verbatim, so the effective prefix ends with a slash exactly when the
supplied value does. -/
theorem c1_fork_pfx_amended (sc : StorageConfig) :
    (sc.pfx = none → endsWithSlash (forkPfxOf sc) = true) ∧
    (∀ p, sc.pfx = some p → forkPfxOf sc = p) := by
  constructor
  · intro h
    simp only [forkPfxOf, h]
    decide
  · intro p hp
    simp only [forkPfxOf, hp]

/-- C1 (witness): the amended statement at the entry with no configured
prefix. -/
theorem c1_fork_pfx_amended_witness :
    endsWithSlash (forkPfxOf scDefault) = true :=
  (c1_fork_pfx_amended scDefault).1 rfl

/-- C2 (counterexample): in the two-bucket configuration cfgSwapped whose
HashMap iteration order reverses the declared order, a fully successful
create_fork run constructs the storage clients in iteration order b, a —
not in the declared order a, b — refuting the claim that buckets are
driven in the order declared in the configuration file. -/
theorem c2_declared_order_counterexample :
    ¬ (bucketOrder ((createFork cfgSwapped (some ("x")) ("g") 0
        (Except.ok ()) (Except.ok dbInfo0)
        (fun l _ => Except.ok l)).2) = declaredLabels cfgSwapped) := by
  decide

/-- C2 (amended): create_fork and delete_fork drive the storage buckets
strictly sequentially — each bucket's client construction and copy or
delete completes before the next bucket's begins — in the iteration order
of the storage map, which is a permutation of the declared entries but,
being a HashMap order, need not equal the declared order. -/
theorem c2_sequential_iteration_order (cfg : Config) (name : Option String)
    (genName dname : String) (now : Nat) (info : DatabaseInfo)
    (u : String → StorageConfig → String) :
    (createFork cfg name genName now (Except.ok ()) (Except.ok info)
        (fun l sc => Except.ok (u l sc))).2 =
      Event.dbCreate (name.getD genName) cfg.database.production
          (databaseGroup cfg) ::
        (storageConfigs cfg).flatMap (blockEvents (name.getD genName)) ∧
    (deleteForkCfg cfg dname (Except.ok ()) (Except.ok ())
        (fun _ _ => Except.ok ())).2 =
      Event.dbDelete dname ::
        (storageConfigs cfg).flatMap
          (fun x => [Event.storageNew x.1 (forkPfxOf x.2),
                     Event.storageDeleteFork x.1 dname]) ∧
    List.Perm ((storageConfigs cfg).map Prod.fst) (declaredLabels cfg) := by
  refine ⟨?_, ?_, ?_⟩
  · have h1 := storageLoop_ok (name.getD genName) u (storageConfigs cfg)
    simp [createFork, h1]
  · have h2 := deleteLoopCfg_ok dname (storageConfigs cfg)
    simp [deleteForkCfg, h2]
  · exact (cfg.storage.perm).map Prod.fst

/-- C3: over a well-formed response sequence, copy_to_fork copies each
listed key k to {root}{fork}/{relative}, where relative strips the source
prefix when k starts with it and is the whole of k otherwise, with copy
source {bucket}/{k}; the returned location is s3://{bucket}/{root}{fork}/. -/
theorem c3_copy_key_mapping (bucket rootPfx sourcePfx forkName : String)
    (pages : List ListResponse) (h : wfPages pages = true) :
    (copyToForkPages bucket rootPfx sourcePfx forkName pages).2.2 =
      "s3://" ++ bucket ++ "/" ++ rootPfx ++ forkName ++ "/" ∧
    (copyToForkPages bucket rootPfx sourcePfx forkName pages).2.1 =
      (allKeys pages).map (fun k =>
        { dest := rootPfx ++ forkName ++ "/" ++
            (if sourcePfx.data.isPrefixOf k.data
             then String.mk (k.data.drop sourcePfx.data.length) else k)
          copySource := bucket ++ "/" ++ k }) := by
  constructor
  · show "s3://" ++ bucket ++ "/" ++ (rootPfx ++ forkName ++ "/") = _
    simp [String.append_assoc]
  · show (copyLoopP bucket (rootPfx ++ forkName ++ "/") sourcePfx pages none).2 = _
    rw [copyLoopP_eq bucket (rootPfx ++ forkName ++ "/") sourcePfx pages none h]
    rfl

/-- C3 (witness): the mapping at a concrete two-page listing. -/
theorem c3_copy_key_mapping_witness :
    (copyToForkPages ("bkt") ("forks/") ("") ("f1") pagesTwo).2.2 =
      "s3://bkt/forks/f1/" ∧
    (copyToForkPages ("bkt") ("forks/") ("") ("f1") pagesTwo).2.1.length = 2 := by
  have h := c3_copy_key_mapping ("bkt") ("forks/") ("") ("f1") pagesTwo (by decide)
  refine ⟨?_, ?_⟩
  · rw [h.1]; decide
  · rw [h.2]; decide

/-- C4: with the empty source prefix every listed key is copied — none is
excluded — and a key that already lies under the root prefix from an
earlier fork is recopied verbatim under the new fork's destination root,
nesting the old fork's objects inside the new fork. -/
theorem c4_nested_fork_copy (bucket rootPfx newFork : String)
    (pages : List ListResponse) (h : wfPages pages = true) :
    (copyToForkPages bucket rootPfx ("") newFork pages).2.1 =
      (allKeys pages).map (fun k =>
        { dest := rootPfx ++ newFork ++ "/" ++ k
          copySource := bucket ++ "/" ++ k }) ∧
    ∀ oldFork rest,
      (rootPfx ++ oldFork ++ "/" ++ rest) ∈ allKeys pages →
      ({ dest := rootPfx ++ newFork ++ "/" ++ (rootPfx ++ oldFork ++ "/" ++ rest)
         copySource := bucket ++ "/" ++ (rootPfx ++ oldFork ++ "/" ++ rest) } :
        CopyAction) ∈ (copyToForkPages bucket rootPfx ("") newFork pages).2.1 := by
  have hfun : copyKeyAction bucket (rootPfx ++ newFork ++ "/") ("") =
      fun k => ({ dest := rootPfx ++ newFork ++ "/" ++ k
                  copySource := bucket ++ "/" ++ k } : CopyAction) := by
    funext k
    simp [copyKeyAction, stripPfx_empty]
  have hmain :
      (copyToForkPages bucket rootPfx ("") newFork pages).2.1 =
        (allKeys pages).map (fun k =>
          ({ dest := rootPfx ++ newFork ++ "/" ++ k
             copySource := bucket ++ "/" ++ k } : CopyAction)) := by
    show (copyLoopP bucket (rootPfx ++ newFork ++ "/") ("") pages none).2 = _
    rw [copyLoopP_eq bucket (rootPfx ++ newFork ++ "/") ("") pages none h, hfun]
  refine ⟨hmain, ?_⟩
  intro oldFork rest hk
  rw [hmain]
  exact List.mem_map.mpr ⟨_, hk, rfl⟩

/-- C4 (witness): the key of an earlier fork is recopied nested under the
new fork. -/
theorem c4_nested_fork_copy_witness :
    ({ dest := ("forks/") ++ ("new") ++ "/" ++
         (("forks/") ++ ("old") ++ "/" ++ ("f.txt"))
       copySource := ("bkt") ++ "/" ++
         (("forks/") ++ ("old") ++ "/" ++ ("f.txt")) } : CopyAction) ∈
      (copyToForkPages ("bkt") ("forks/") ("") ("new") pagesNested).2.1 := by
  have h := c4_nested_fork_copy ("bkt") ("forks/") ("new") pagesNested (by decide)
  exact h.2 ("old") ("f.txt") (by decide)

/-- C5: over a well-formed response sequence both copy_to_fork and
delete_fork terminate, issue exactly one listing call per page — the first
call with no token and each later call carrying the previous page's
continuation token — and operate on the union of all pages' keys. -/
theorem c5_pagination (bucket rootPfx sourcePfx forkName rootPfx2
    forkName2 : String) (pages : List ListResponse)
    (h : wfPages pages = true) :
    (copyToForkPages bucket rootPfx sourcePfx forkName pages).1 =
      none :: pages.dropLast.map (fun r => r.next_continuation_token) ∧
    (copyToForkPages bucket rootPfx sourcePfx forkName pages).1.length =
      pages.length ∧
    (copyToForkPages bucket rootPfx sourcePfx forkName pages).2.1 =
      (allKeys pages).map
        (copyKeyAction bucket (rootPfx ++ forkName ++ "/") sourcePfx) ∧
    (deleteForkPages rootPfx2 forkName2 pages).1 =
      none :: pages.dropLast.map (fun r => r.next_continuation_token) ∧
    (deleteForkPages rootPfx2 forkName2 pages).1.length = pages.length ∧
    (deleteForkPages rootPfx2 forkName2 pages).2 = allKeys pages := by
  have hc := copyLoopP_eq bucket (rootPfx ++ forkName ++ "/") sourcePfx pages none h
  have hd := deleteLoopP_eq pages none h
  have hne : pages ≠ [] := wfPages_ne_nil pages h
  have hpos : 0 < pages.length := List.length_pos.mpr hne
  have hlen :
      (none :: pages.dropLast.map
        (fun r => r.next_continuation_token)).length = pages.length := by
    simp [List.length_dropLast]
    omega
  refine ⟨?_, ?_, ?_, ?_, ?_, ?_⟩
  · show (copyLoopP bucket (rootPfx ++ forkName ++ "/") sourcePfx pages none).1 = _
    rw [hc]
  · show (copyLoopP bucket (rootPfx ++ forkName ++ "/") sourcePfx pages none).1.length = _
    rw [hc]
    exact hlen
  · show (copyLoopP bucket (rootPfx ++ forkName ++ "/") sourcePfx pages none).2 = _
    rw [hc]
  · show (deleteLoopP pages none).1 = _
    rw [hd]
  · show (deleteLoopP pages none).1.length = _
    rw [hd]
    exact hlen
  · show (deleteLoopP pages none).2 = _
    rw [hd]

/-- C5 (witness): the two-page listing yields exactly two listing calls for
both operations. -/
theorem c5_pagination_witness :
    (copyToForkPages ("b") ("forks/") ("") ("f") pagesTwo).1.length = 2 ∧
    (deleteForkPages ("forks/") ("f") pagesTwo).1.length = 2 := by
  have h := c5_pagination ("b") ("forks/") ("") ("f") ("forks/") ("f")
      pagesTwo (by decide)
  refine ⟨?_, ?_⟩
  · rw [h.2.1]
    decide
  · rw [h.2.2.2.2.1]
    decide

/-- C6: when the database creation succeeds and some bucket's storage copy
fails, create_fork returns that storage error; the trace holds the database
creation and the earlier buckets' completed copies, and contains no
database deletion — no rollback call is made. -/
theorem c6_no_rollback (cfg : Config) (name : Option String)
    (genName : String) (now : Nat) (info : DatabaseInfo)
    (pre post : List (String × StorageConfig)) (label : String)
    (sc : StorageConfig) (e : String)
    (cr : String → StorageConfig → Except String String)
    (hsplit : storageConfigs cfg = pre ++ (label, sc) :: post)
    (hpre : ∀ x ∈ pre, ∃ url, cr x.1 x.2 = Except.ok url)
    (hfail : cr label sc = Except.error e) :
    (createFork cfg name genName now (Except.ok ()) (Except.ok info) cr).1 =
      Except.error e ∧
    (createFork cfg name genName now (Except.ok ()) (Except.ok info) cr).2 =
      Event.dbCreate (name.getD genName) cfg.database.production
          (databaseGroup cfg) ::
        (pre.flatMap (blockEvents (name.getD genName)) ++
          blockEvents (name.getD genName) (label, sc)) ∧
    ∀ n, Event.dbDelete n ∉
      (createFork cfg name genName now (Except.ok ()) (Except.ok info) cr).2 := by
  have hline := storageLoop_fail (name.getD genName) cr label sc e hfail pre post hpre
  have hres :
      createFork cfg name genName now (Except.ok ()) (Except.ok info) cr =
        (Except.error e,
         Event.dbCreate (name.getD genName) cfg.database.production
             (databaseGroup cfg) ::
           (pre.flatMap (blockEvents (name.getD genName)) ++
             blockEvents (name.getD genName) (label, sc))) := by
    simp [createFork, hsplit, hline]
  refine ⟨?_, ?_, ?_⟩
  · rw [hres]
  · rw [hres]
  · intro n hmem
    rw [hres] at hmem
    simp [blockEvents, List.mem_flatMap] at hmem

/-- C6 (witness): bucket b's failing copy in the configuration cfgTwo
surfaces the storage error with no database deletion in the trace. -/
theorem c6_no_rollback_witness :
    (createFork cfgTwo (some ("x")) ("g") 0 (Except.ok ())
        (Except.ok dbInfo0) crW).1 = Except.error ("boom") ∧
    ∀ n, Event.dbDelete n ∉
      (createFork cfgTwo (some ("x")) ("g") 0 (Except.ok ())
        (Except.ok dbInfo0) crW).2 := by
  have h := c6_no_rollback cfgTwo (some ("x")) ("g") 0 dbInfo0
      [(("a"), scA)] [] ("b") scB ("boom") crW rfl
      (by
        intro x hx
        simp at hx
        subst hx
        exact ⟨("u"), rfl⟩)
      rfl
  exact ⟨h.1, h.2.2⟩

/-- C7: list_forks keeps exactly the provider entries whose name differs
from the configured production database name, in the order received, each
mapped to a Fork with the libsql URL of its hostname, an empty storage URL
and creation time zero. -/
theorem c7_list_forks (cfg : Config) (databases : List DatabaseListItem) :
    listForks cfg databases =
      databases.filterMap (fun db =>
        if db.name = cfg.database.production then none
        else some { name := db.name
                    database_url := "libsql://" ++ db.hostname
                    storage_url := ""
                    created_at := 0 }) := by
  induction databases with
  | nil => rfl
  | cons d ds ih =>
    by_cases hd : d.name = cfg.database.production
    · simpa [listForks, List.filter_cons, List.filterMap_cons, hd] using ih
    · simpa [listForks, List.filter_cons, List.filterMap_cons, hd] using ih

/-- C8: created_ago computes the difference as the saturating subtraction
max(0, now - created_at), renders the four ranges with floor division, and
the four sample differences render as stated. -/
theorem c8_created_ago (f : Fork) (now : Nat) :
    ((now - f.created_at : Nat) : Int) =
      max 0 ((now : Int) - (f.created_at : Int)) ∧
    (now - f.created_at < 60 → f.createdAgo now = "just now") ∧
    (60 ≤ now - f.created_at → now - f.created_at < 3600 →
      f.createdAgo now = toString ((now - f.created_at) / 60) ++ " mins ago") ∧
    (3600 ≤ now - f.created_at → now - f.created_at < 86400 →
      f.createdAgo now = toString ((now - f.created_at) / 3600) ++ " hours ago") ∧
    (86400 ≤ now - f.created_at →
      f.createdAgo now = toString ((now - f.created_at) / 86400) ++ " days ago") ∧
    (Fork.mk ("") ("") ("") 0).createdAgo 30 = "just now" ∧
    (Fork.mk ("") ("") ("") 0).createdAgo 125 = "2 mins ago" ∧
    (Fork.mk ("") ("") ("") 0).createdAgo 7300 = "2 hours ago" ∧
    (Fork.mk ("") ("") ("") 0).createdAgo 172800 = "2 days ago" := by
  refine ⟨?_, ?_, ?_, ?_, ?_, by decide, by decide, by decide, by decide⟩
  · omega
  · intro h1
    simp only [Fork.createdAgo]
    rw [if_pos h1]
  · intro h1 h2
    simp only [Fork.createdAgo]
    rw [if_neg (by omega), if_pos h2]
  · intro h1 h2
    simp only [Fork.createdAgo]
    rw [if_neg (by omega), if_neg (by omega), if_pos h2]
  · intro h1
    simp only [Fork.createdAgo]
    rw [if_neg (by omega), if_neg (by omega), if_neg (by omega)]

/-- C8 (witness): the minutes branch at the sample difference 125. -/
theorem c8_created_ago_witness :
    (Fork.mk ("") ("") ("") 0).createdAgo 125 = "2 mins ago" := by
  have h := (c8_created_ago (Fork.mk ("") ("") ("") 0) 125).2.2.1
      (by decide) (by decide)
  simpa using h

/-- C9: for every 64-bit hash value the generated name composes the
adjective at index h mod 5, the noun at index (h >> 8) mod 5 and the
number (h >> 16) mod 1000, hyphen-separated; two sample hashes land on
different adjective and noun indices. -/
theorem c9_generate_fork_name (h : Nat) (_hlt : h < 2 ^ 64) :
    generateForkName h =
      (["swift", "bright", "calm", "bold", "keen"].getD (h % 5) ("")) ++ "-" ++
      (["fork", "branch", "leaf", "wave", "spark"].getD ((h / 2 ^ 8) % 5) ("")) ++
      "-" ++ toString ((h / 2 ^ 16) % 1000) ∧
    generateForkName 0 = "swift-fork-0" ∧
    generateForkName 31589379 = "keen-branch-482" := by
  refine ⟨?_, by decide, by decide⟩
  rw [← Nat.shiftRight_eq_div_pow, ← Nat.shiftRight_eq_div_pow]
  rfl

/-- C9 (witness): the composed name at the sample hash. -/
theorem c9_generate_fork_name_witness :
    generateForkName 31589379 = "keen-branch-482" :=
  (c9_generate_fork_name 31589379 (by decide)).2.2

set_option maxRecDepth 8000 in
/-- C10: configuration discovery checks the dotted file name before the
plain one in each directory while walking from the current directory up to
the root and returns the first match; when no visited directory holds
either file it fails with the Configuration-Not-Found message, which
contains the words database, provider and organization. -/
theorem c10_find_config_file (fs : List String → Bool) (dir : List String) :
    findConfigFile fs dir =
      (match (upwardChain dir).find?
          (fun d => fs (d ++ [dotName]) || fs (d ++ [altName])) with
       | some d =>
         if fs (d ++ [dotName]) then Except.ok (d ++ [dotName])
         else Except.ok (d ++ [altName])
       | none => Except.error noConfigMsg) ∧
    List.IsInfix ("database").data noConfigMsg.data ∧
    List.IsInfix ("provider").data noConfigMsg.data ∧
    List.IsInfix ("organization").data noConfigMsg.data :=
  ⟨findConfigAux_eq fs dir.reverse, by decide, by decide, by decide⟩
